import Mathlib

/-!
Verification development for the spreadsheet-to-database bidirectional sync
service.  The definitions below are a shallow embedding of the TypeScript
source: cell and row values become an inductive `Value` type, JavaScript
objects become association lists, `Map` objects become association lists with
set-overwrite semantics, timestamps become integers (epoch milliseconds), and
the stateful workers become explicit state-passing functions.  Each definition
is annotated with the source file and function it embeds.
-/

namespace SheetSync

/-! ## JavaScript value model

Rows flow through the system as untyped JavaScript objects
(`Record<string, unknown>` in `src/backend/src/sync/change-detector.ts`).
`Value` models the values that occur in those rows: `vNull` stands for both
`null` and `undefined`, `vStr`/`vInt`/`vBool` are the primitives (numbers are
modelled as integers; every numeric value in the repository's data paths is
integral), `vDate` is a `Date` carrying its epoch-millisecond timestamp, and
`vObj` is a plain object as an insertion-ordered association list with unique
keys (JavaScript objects cannot carry duplicate keys).
-/

inductive Value where
  | vNull : Value
  | vStr : String → Value
  | vInt : Int → Value
  | vBool : Bool → Value
  | vDate : Int → Value
  | vObj : List (String × Value) → Value

/-- A row object: insertion-ordered fields with unique keys, as produced by
`convertSheetDataToRows` and by SQL row reads. -/
abbrev RowData : Type := List (String × Value)

/-- JavaScript property read `row[key]`: a missing property reads as
`undefined`, which `Value` collapses into `vNull`. -/
def jsGet (row : RowData) (key : String) : Value :=
  match row.find? (fun kv => kv.1 == key) with
  | some kv => kv.2
  | none => Value.vNull

/-- JavaScript `String(x)` coercion for the values the detector compares.
Integers and booleans render as in JavaScript; a `Date` renders through an
opaque injective tag (the locale-dependent JS rendering is never compared in
the code paths the claims exercise); a plain object renders as
`[object Object]`. -/
def Value.jsString : Value → String
  | Value.vNull => "null"
  | Value.vStr s => s
  | Value.vInt n => toString n
  | Value.vBool b => if b then "true" else "false"
  | Value.vDate t => "Date(" ++ toString t ++ ")"
  | Value.vObj _ => "[object Object]"

/-- JavaScript truthiness test for `Value` (`!x` in the source negates this):
`undefined`/`null`, the empty string, the number `0` and `false` are falsy. -/
def jsTruthy : Value → Bool
  | Value.vNull => false
  | Value.vStr s => !(s == "")
  | Value.vInt n => !(n == 0)
  | Value.vBool b => b
  | Value.vDate _ => true
  | Value.vObj _ => true

/-- JavaScript `Object.keys`: a `Date` has no enumerable own properties. -/
def Value.objKeys : Value → List String
  | Value.vObj fields => fields.map Prod.fst
  | _ => []

/-- Property read on a value treated as an object (missing → `undefined`). -/
def Value.objGet : Value → String → Value
  | Value.vObj fields, key => jsGet fields key
  | _, _ => Value.vNull

/-! ## Change detector (`src/backend/src/sync/change-detector.ts`) -/

/-- Options of `ChangeDetector` (`change-detector.ts` lines 24-27). -/
structure ChangeDetectorOptions where
  primaryKey : String
  ignoreColumns : List String

mutual

/-- Embedding of `ChangeDetector.valuesEqual` (`change-detector.ts` lines
163-198).  The branch order mirrors the source: null/undefined first; if
either side is primitive, trimmed-string comparison of the `String(...)`
coercions (the final catch-all row, which is reached exactly when at least
one side is a primitive); two `Date`s compare by timestamp; otherwise the
shallow object comparison: `Object.keys` counts must match and every field of
the left object must compare equal to the correspondingly-keyed property of
the right. -/
def valuesEqual : Value → Value → Bool
  | Value.vNull, Value.vNull => true
  | Value.vNull, _ => false
  | _, Value.vNull => false
  | Value.vDate s, Value.vDate t => s == t
  | Value.vDate _, Value.vObj gs => 0 == gs.length
  | Value.vObj fs, Value.vDate d => (fs.length == 0) && fieldsEqual fs (Value.vDate d)
  | Value.vObj fs, Value.vObj gs => (fs.length == gs.length) && fieldsEqual fs (Value.vObj gs)
  | a, b => a.jsString.trim == b.jsString.trim

/-- The `for (const key of aKeys)` loop of `valuesEqual`: iterate the left
object's fields and compare each against the same-keyed property of `b`. -/
def fieldsEqual : List (String × Value) → Value → Bool
  | [], _ => true
  | (_k, v) :: rest, b => valuesEqual v (b.objGet _k) && fieldsEqual rest b

end

/-- Union of the key sets of both rows in source order, as built by
`new Set([...Object.keys(current), ...Object.keys(baseline)])`
(`change-detector.ts` lines 141-144). -/
def allColumnsOf (current baseline : RowData) : List String :=
  current.map Prod.fst ++ (baseline.map Prod.fst).filter (fun k => !((current.map Prod.fst).contains k))

/-- Embedding of `ChangeDetector.hasChanged` (`change-detector.ts` lines
134-158): the primary key and the configured ignore columns are skipped; the
rows differ when any remaining column compares unequal under `valuesEqual`. -/
def hasChanged (opts : ChangeDetectorOptions) (current baseline : RowData) : Bool :=
  let ignoreSet := opts.primaryKey :: opts.ignoreColumns
  (allColumnsOf current baseline).any fun column =>
    !(ignoreSet.contains column) && !(valuesEqual (jsGet current column) (jsGet baseline column))

/-- A primary-key value as the detector uses it: JavaScript `string | number`
(`change-detector.ts` line 115).  A `Map` distinguishes the string `"1"` from
the number `1`, so the two constructors stay distinct. -/
inductive RowKey where
  | str : String → RowKey
  | num : Int → RowKey
deriving DecidableEq, Repr

/-- Embedding of `ChangeDetector.getPrimaryKeyValue` (`change-detector.ts`
lines 115-128): `undefined`, `null` and the empty string give `none`; strings
and numbers are used as-is; any other value is coerced with `String(...)`. -/
def getPrimaryKeyValue (pk : String) (row : RowData) : Option RowKey :=
  match jsGet row pk with
  | Value.vNull => none
  | Value.vStr s => if s == "" then none else some (RowKey.str s)
  | Value.vInt n => some (RowKey.num n)
  | v => some (RowKey.str v.jsString)

/-- JavaScript `Map.set` on an association list: overwrite in place when the
key exists (preserving first-insertion order), otherwise append. -/
def mapSet {κ α : Type} [DecidableEq κ] (m : List (κ × α)) (k : κ) (v : α) : List (κ × α) :=
  match m with
  | [] => [(k, v)]
  | (k0, v0) :: rest => if k0 = k then (k0, v) :: rest else (k0, v0) :: mapSet rest k v

/-- JavaScript `Map.get` on an association list. -/
def mapGet {κ α : Type} [DecidableEq κ] (m : List (κ × α)) (k : κ) : Option α :=
  match m with
  | [] => none
  | (k0, v0) :: rest => if k0 = k then some v0 else mapGet rest k

/-- One iteration of the map-building loops of `ChangeDetector.detect`
(`change-detector.ts` lines 51-66): rows with a missing/null/empty primary
key are skipped, all others are `Map.set` into the accumulator. -/
def buildMapStep (pk : String) (m : List (RowKey × RowData)) (row : RowData) :
    List (RowKey × RowData) :=
  match getPrimaryKeyValue pk row with
  | some k => mapSet m k row
  | none => m

/-- The map-building loops of `ChangeDetector.detect` (`change-detector.ts`
lines 51-66). -/
def buildMap (pk : String) (rows : List RowData) : List (RowKey × RowData) :=
  rows.foldl (buildMapStep pk) []

/-- Result record of `ChangeDetector.detect` (`src/backend/src/types`,
`ChangeDetectionResult`): `updates` entries are `{identifier, data}` pairs. -/
structure ChangeDetectionResult where
  inserts : List RowData
  updates : List (RowKey × RowData)
  deletes : List RowKey

/-- The inserts/updates pass of `ChangeDetector.detect` (`change-detector.ts`
lines 69-87): iterate `current` in order; a row whose key is absent from the
baseline map is an insert; a row whose key is present is an update exactly
when `hasChanged` holds; rows without a usable key are skipped. -/
def detectInsertsUpdates (opts : ChangeDetectorOptions)
    (baselineMap : List (RowKey × RowData)) :
    List RowData → List RowData × List (RowKey × RowData)
  | [] => ([], [])
  | row :: rest =>
    let tail := detectInsertsUpdates opts baselineMap rest
    match getPrimaryKeyValue opts.primaryKey row with
    | none => tail
    | some k =>
      match mapGet baselineMap k with
      | none => (row :: tail.1, tail.2)
      | some baselineRow =>
        if hasChanged opts row baselineRow then (tail.1, (k, row) :: tail.2) else tail

/-- The deletes pass of `ChangeDetector.detect` (`change-detector.ts` lines
90-98): every baseline key absent from the current map is a delete. -/
def detectDeletes (pk : String) (currentMap : List (RowKey × RowData)) :
    List RowData → List RowKey
  | [] => []
  | row :: rest =>
    let tail := detectDeletes pk currentMap rest
    match getPrimaryKeyValue pk row with
    | none => tail
    | some k =>
      match mapGet currentMap k with
      | some _ => tail
      | none => k :: tail

/-- Embedding of `ChangeDetector.detect` (`change-detector.ts` lines 43-110). -/
def detect (opts : ChangeDetectorOptions) (current baseline : List RowData) :
    ChangeDetectionResult :=
  let baselineMap := buildMap opts.primaryKey baseline
  let currentMap := buildMap opts.primaryKey current
  let pass1 := detectInsertsUpdates opts baselineMap current
  { inserts := pass1.1
    updates := pass1.2
    deletes := detectDeletes opts.primaryKey currentMap baseline }

/-- The multiset of usable primary-key values of a row sequence, in iteration
order (rows the detector skips contribute nothing). -/
def keysOf (pk : String) (rows : List RowData) : List RowKey :=
  rows.filterMap (getPrimaryKeyValue pk)

/-! ## Change-capture log and MySQL adapter (`src/unnamed/part_005`,
`MySQLAdapter`, and the `__sync_change_log` schema in `src/unnamed/part_002`) -/

/-- The `operation` column of `__sync_change_log`. -/
inductive Operation where
  | INSERT : Operation
  | UPDATE : Operation
  | DELETE : Operation
deriving DecidableEq, Repr

/-- One row of `__sync_change_log` (`src/unnamed/part_002` lines 5-15):
monotonic id, table name, operation, JSON row snapshot, nullable source tag,
changed-at timestamp, processed flag. -/
structure ChangeLogEntry where
  id : Nat
  tableName : String
  operation : Operation
  rowData : RowData
  sourceTag : Option String
  changedAt : Int
  processed : Bool

/-- Option bag of `MySQLAdapter.getChangeLog` (`part_005` lines 213-217). -/
structure ChangeLogOptions where
  processed : Option Bool
  excludeSourceTag : Option String
  limit : Option Nat

/-- The WHERE clause assembled by `MySQLAdapter.getChangeLog` (`part_005`
lines 218-229).  The table-name condition is always present.  The processed
condition is added when the option is supplied (the source tests
`options.processed !== undefined`, so `processed: false` does add the
condition).  The source-tag condition is added only when `excludeSourceTag`
is truthy (the source tests `if (options.excludeSourceTag)`, so an empty
string adds no condition); when added it is SQL
`source_tag IS NULL OR source_tag != ?`. -/
def matchesChangeLogWhere (tbl : String) (opts : ChangeLogOptions)
    (e : ChangeLogEntry) : Bool :=
  (e.tableName == tbl)
  && (match opts.processed with
      | some p => e.processed == p
      | none => true)
  && (match opts.excludeSourceTag with
      | some t =>
        if t == "" then true
        else
          match e.sourceTag with
          | none => true
          | some s => !(s == t)
      | none => true)

/-- The comparison of the `ORDER BY changed_at ASC` clause. -/
def changedAtLe (a b : ChangeLogEntry) : Prop := a.changedAt ≤ b.changedAt

instance : DecidableRel changedAtLe := fun a b => Int.decLe a.changedAt b.changedAt

instance : IsTotal ChangeLogEntry changedAtLe := ⟨fun a b => Int.le_total a.changedAt b.changedAt⟩

instance : IsTrans ChangeLogEntry changedAtLe := ⟨fun _ _ _ => Int.le_trans⟩

/-- SQL `ORDER BY changed_at ASC` (`part_005` line 231), modelled as an
insertion sort on the changed-at timestamp (SQL leaves the relative order of
equal timestamps unspecified). -/
def sortByChangedAt (l : List ChangeLogEntry) : List ChangeLogEntry :=
  List.insertionSort changedAtLe l

/-- Whether a change-log result list is ordered by change id ascending. -/
def idsAscending : List ChangeLogEntry → Bool
  | [] => true
  | [_] => true
  | a :: b :: rest => decide (a.id ≤ b.id) && idsAscending (b :: rest)

/-- SQL `LIMIT ?`, appended only when `options.limit` is truthy (`part_005`
lines 233-236; a limit of `0` is falsy in JavaScript and adds no clause). -/
def applyLimit (limit : Option Nat) (rows : List ChangeLogEntry) : List ChangeLogEntry :=
  match limit with
  | some n => if n == 0 then rows else rows.take n
  | none => rows

/-- Embedding of `MySQLAdapter.getChangeLog` (`part_005` lines 213-240) over
an explicit log table: filter by the assembled WHERE clause, order by
`changed_at` ascending, then apply the LIMIT clause when one was added. -/
def MySQLAdapter.getChangeLog (log : List ChangeLogEntry) (tbl : String)
    (opts : ChangeLogOptions) : List ChangeLogEntry :=
  applyLimit opts.limit (sortByChangedAt (log.filter (matchesChangeLogWhere tbl opts)))

/-- Embedding of `MySQLAdapter.markChangesProcessed` (`part_005` lines
245-253): one UPDATE statement setting `processed = TRUE` for every row whose
id is in the list. -/
def MySQLAdapter.markChangesProcessed (log : List ChangeLogEntry) (ids : List Nat) :
    List ChangeLogEntry :=
  log.map fun e => if e.id ∈ ids then { e with processed := true } else e

/-- The optional write metadata accepted by the adapter's mutation methods
(`part_005`, the `metadata?: { sourceTag?: string; operationId?: string }`
parameter). -/
structure WriteMetadata where
  sourceTag : Option String
  operationId : Option String

/-- The session variable assignment guarding CDC tagging (`part_005` lines
131-134 for insert, 168-170 for update, 193-195 for delete): the adapter runs
`SET @sync_source_tag = ?` exactly when `metadata?.sourceTag` is truthy, so a
missing metadata argument, a missing tag, or an empty tag leaves the session
variable NULL. -/
def sessionTagForWrite (metadata : Option WriteMetadata) : Option String :=
  match metadata with
  | some m =>
    match m.sourceTag with
    | some t => if t == "" then none else some t
    | none => none
  | none => none

/-- The tag each CDC trigger stores (`part_005` lines 273-274, 286-287,
299-300): `COALESCE(@sync_source_tag, 'external')`. -/
def triggerSourceTag (sessionTag : Option String) : String :=
  sessionTag.getD "external"

/-! ## Conflict detector and resolver
(`src/backend/src/sync/conflict-resolver.ts`) -/

/-- One element of `ConflictDetectionInput.sheetChanges` / `dbChanges`
(`conflict-resolver.ts` lines 25-38). -/
structure SourceChange where
  rowId : RowKey
  data : RowData
  timestamp : Int
  columns : List String

/-- Input of `ConflictResolver.detectConflicts`. -/
structure ConflictDetectionInput where
  sheetChanges : List SourceChange
  dbChanges : List SourceChange
  lastSyncTime : Int

/-- A detected conflict (`conflict-resolver.ts` lines 41-48). -/
structure DetectedConflict where
  rowId : RowKey
  sheetValue : RowData
  dbValue : RowData
  sheetTimestamp : Int
  dbTimestamp : Int
  conflictingColumns : List String

/-- Conflict strategies (`src/backend/src/types`, `ConflictStrategy`). -/
inductive ConflictStrategy where
  | LAST_WRITE_WINS : ConflictStrategy
  | SHEET_WINS : ConflictStrategy
  | DB_WINS : ConflictStrategy
  | MANUAL : ConflictStrategy
deriving DecidableEq, Repr

/-- The `winner` field of a resolved conflict. -/
inductive Winner where
  | sheet : Winner
  | db : Winner
  | manual : Winner
deriving DecidableEq, Repr

/-- A resolved conflict (`conflict-resolver.ts` lines 50-55). -/
structure ResolvedConflict where
  rowId : RowKey
  winner : Winner
  resolvedValue : Option RowData
  strategy : ConflictStrategy

/-- Embedding of `ConflictResolver.findOverlappingColumns`
(`conflict-resolver.ts` lines 218-221): the members of `cols2` that also
occur in `cols1`, in `cols2` order. -/
def findOverlappingColumns (cols1 cols2 : List String) : List String :=
  cols2.filter fun col => cols1.contains col

/-- The `for (const sheetChange of input.sheetChanges)` loop of
`ConflictResolver.detectConflicts` (`conflict-resolver.ts` lines 74-111):
a sheet change conflicts when a db change exists for the same row id, both
timestamps are strictly after the last sync time, and the changed column
sets overlap. -/
def detectConflictsLoop (dbChangeMap : List (RowKey × SourceChange))
    (lastSyncTime : Int) : List SourceChange → List DetectedConflict
  | [] => []
  | sheetChange :: rest =>
    let tail := detectConflictsLoop dbChangeMap lastSyncTime rest
    match mapGet dbChangeMap sheetChange.rowId with
    | none => tail
    | some dbChange =>
      if sheetChange.timestamp > lastSyncTime && dbChange.timestamp > lastSyncTime then
        let overlappingColumns := findOverlappingColumns sheetChange.columns dbChange.columns
        if overlappingColumns.length > 0 then
          { rowId := sheetChange.rowId
            sheetValue := sheetChange.data
            dbValue := dbChange.data
            sheetTimestamp := sheetChange.timestamp
            dbTimestamp := dbChange.timestamp
            conflictingColumns := overlappingColumns } :: tail
        else tail
      else tail

/-- Embedding of `ConflictResolver.detectConflicts` (`conflict-resolver.ts`
lines 64-114): build the db-change map, then scan the sheet changes. -/
def ConflictResolver.detectConflicts (input : ConflictDetectionInput) :
    List DetectedConflict :=
  let dbChangeMap := input.dbChanges.foldl (fun m c => mapSet m c.rowId c) []
  detectConflictsLoop dbChangeMap input.lastSyncTime input.sheetChanges

/-- Embedding of `ConflictResolver.resolveLWW` (`conflict-resolver.ts` lines
149-171): the sheet wins exactly when its timestamp is strictly greater,
otherwise the db wins; the resolved value follows the winner. -/
def ConflictResolver.resolveLWW (conflict : DetectedConflict) : ResolvedConflict :=
  let winner := if conflict.sheetTimestamp > conflict.dbTimestamp then Winner.sheet else Winner.db
  let resolvedValue := if winner = Winner.sheet then conflict.sheetValue else conflict.dbValue
  { rowId := conflict.rowId
    winner := winner
    resolvedValue := some resolvedValue
    strategy := ConflictStrategy.LAST_WRITE_WINS }

/-- Embedding of `ConflictResolver.resolveSheetWins` (lines 176-185). -/
def ConflictResolver.resolveSheetWins (conflict : DetectedConflict) : ResolvedConflict :=
  { rowId := conflict.rowId
    winner := Winner.sheet
    resolvedValue := some conflict.sheetValue
    strategy := ConflictStrategy.SHEET_WINS }

/-- Embedding of `ConflictResolver.resolveDbWins` (lines 190-199). -/
def ConflictResolver.resolveDbWins (conflict : DetectedConflict) : ResolvedConflict :=
  { rowId := conflict.rowId
    winner := Winner.db
    resolvedValue := some conflict.dbValue
    strategy := ConflictStrategy.DB_WINS }

/-- Embedding of `ConflictResolver.resolveManual` (lines 204-213). -/
def ConflictResolver.resolveManual (conflict : DetectedConflict) : ResolvedConflict :=
  { rowId := conflict.rowId
    winner := Winner.manual
    resolvedValue := none
    strategy := ConflictStrategy.MANUAL }

/-- Embedding of `ConflictResolver.resolveConflict` (`conflict-resolver.ts`
lines 123-144).  The source's `default:` arm (unknown strategy falls back to
LWW) is unreachable here because the strategy type is closed. -/
def ConflictResolver.resolveConflict (conflict : DetectedConflict)
    (strategy : ConflictStrategy) : ResolvedConflict :=
  match strategy with
  | ConflictStrategy.LAST_WRITE_WINS => ConflictResolver.resolveLWW conflict
  | ConflictStrategy.SHEET_WINS => ConflictResolver.resolveSheetWins conflict
  | ConflictStrategy.DB_WINS => ConflictResolver.resolveDbWins conflict
  | ConflictStrategy.MANUAL => ConflictResolver.resolveManual conflict

/-- Embedding of `SheetToDbWorker.detectConflicts` (`src/unnamed/part_001`
lines 286-302).  The body is stubbed in the source: it never queries the
table-side change log and returns the empty array for every input (the
source comments read "For this demo, we'll skip actual conflict detection"). -/
def SheetToDbWorker.detectConflicts (_changes : ChangeDetectionResult)
    (_lastDbSyncAt : Option Int) : List DetectedConflict := []

/-! ## The S→T worker's database writes (`src/unnamed/part_001` lines
186-235, against `MySQLAdapter` in `src/unnamed/part_005`) -/

/-- The argument vector of one `MySQLAdapter.insert` invocation.
`MySQLAdapter.insert` (`part_005` lines 124-128) declares the parameters
`(tableName: string, data: Record<string, unknown>, metadata?)`; the fields
here record what a JavaScript call site actually binds to each parameter
position (JavaScript performs no arity or type checking). -/
structure InsertArgs where
  tableNameArg : Value
  dataArg : RowData
  metadataArg : Option WriteMetadata

/-- The S→T worker's insert invocation (`part_001` lines 208-211):
`this.dbAdapter.insert(row, { sourceTag: 'from_sheet', operationId })` passes
two arguments, so under positional binding the row object lands in the
`tableName` parameter, the metadata object lands in the `data` parameter,
and the `metadata` parameter is `undefined`. -/
def SheetToDbWorker.insertCallArgs (row : RowData) (operationId : String) : InsertArgs :=
  { tableNameArg := Value.vObj row
    dataArg := [("sourceTag", Value.vStr "from_sheet"),
                ("operationId", Value.vStr operationId)]
    metadataArg := none }

/-- The metadata argument of the S→T worker's update invocation (`part_001`
lines 218-222): `update(data, where, { sourceTag: 'from_sheet', operationId })`
matches `MySQLAdapter.update (data, where, metadata?)` positionally, so the
metadata does arrive in the `metadata` parameter. -/
def SheetToDbWorker.updateCallMetadata (operationId : String) : Option WriteMetadata :=
  some { sourceTag := some "from_sheet", operationId := some operationId }

/-- The metadata argument of the S→T worker's delete invocation (`part_001`
lines 229-232), also positionally correct. -/
def SheetToDbWorker.deleteCallMetadata (operationId : String) : Option WriteMetadata :=
  some { sourceTag := some "from_sheet", operationId := some operationId }

/-- A DML statement issued against the target table by the S→T worker's
write loop. -/
inductive TargetWrite where
  | ins : RowData → Option WriteMetadata → TargetWrite
  | upd : RowData → RowData → Option WriteMetadata → TargetWrite
  | del : RowData → Option WriteMetadata → TargetWrite

/-- Target-database state as seen across connections: the committed DML
statements in commit order, plus the statements executed on the dedicated
transaction connection that are still uncommitted. -/
structure TargetDbState where
  committed : List TargetWrite
  txnPending : List TargetWrite

/-- The write loop inside the S→T worker's transaction callback (`part_001`
lines 205-235).  Each iteration invokes `MySQLAdapter.insert` / `update` /
`delete`, and each of those methods obtains its own connection with
`this.pool.getConnection()` (`part_005` lines 129, 166, 191) — not the
transaction's connection — so every statement auto-commits the moment it
succeeds.  `failsAt i` says whether the i-th statement's execution throws;
on a throw the loop aborts with the statements before it already committed. -/
def runPooledWrites (failsAt : Nat → Bool) :
    TargetDbState → Nat → List TargetWrite → TargetDbState × Bool
  | st, _, [] => (st, true)
  | st, i, w :: ws =>
    if failsAt i then (st, false)
    else runPooledWrites failsAt { st with committed := st.committed ++ [w] } (i + 1) ws

/-- Embedding of `MySQLAdapter.transaction` (`part_005` lines 60-75): BEGIN on
a dedicated pooled connection, run the callback, COMMIT on success, ROLLBACK
on error and rethrow.  COMMIT and ROLLBACK act on the statements executed on
that dedicated connection (`txnPending`); statements the callback issued
through other pooled connections were auto-committed as they ran and are
untouched by the rollback. -/
def MySQLAdapter.transactionRun (st : TargetDbState)
    (body : TargetDbState → TargetDbState × Bool) : TargetDbState × Bool :=
  let st0 : TargetDbState := { st with txnPending := [] }
  let run := body st0
  if run.2 then
    ({ committed := run.1.committed ++ run.1.txnPending, txnPending := [] }, true)
  else
    ({ run.1 with txnPending := [] }, false)

/-- Step 10 of the S→T worker (`part_001` lines 205-235): apply the planned
writes inside `this.dbAdapter.transaction(...)`, with the callback issuing
each write through the adapter's pooled-connection methods. -/
def SheetToDbWorker.applyChanges (writes : List TargetWrite) (failsAt : Nat → Bool)
    (st : TargetDbState) : TargetDbState × Bool :=
  MySQLAdapter.transactionRun st fun st0 => runPooledWrites failsAt st0 0 writes

/-! ## T→S worker (`DbToSheetWorker` in
`src/backend/src/sync/conflict-resolver.ts`, lines 309-595) -/

/-- First-match lookup in a string-keyed association list (JavaScript
property read on a plain mapping object, as an `Option`). -/
def lookupFirst {α : Type} (m : List (String × α)) (k : String) : Option α :=
  (m.find? fun kv => kv.1 == k).map fun kv => kv.2

/-- Embedding of `indexToColumnLetter` (`conflict-resolver.ts` lines 587-594,
identical in `part_001` lines 352-359): 0 → A, 25 → Z, 26 → AA, working in
base 26 with the distinctive `index = floor(index / 26) - 1` step. -/
def indexToColumnLetter (index : Nat) : String :=
  let letter := String.singleton (Char.ofNat (index % 26 + 65))
  if index < 26 then letter
  else indexToColumnLetter (index / 26 - 1) ++ letter
termination_by index
decreasing_by
  have h26 : index / 26 < index := Nat.div_lt_self (by omega) (by omega)
  omega

/-- Embedding of `getPrimaryKeyColumn` (`conflict-resolver.ts` lines 572-574,
identical in `part_001` lines 335-338): `this.config.column_mapping['A'] ||
'id'` — a missing or empty (falsy) mapping for column A falls back to `id`. -/
def getPrimaryKeyColumn (mapping : List (String × String)) : String :=
  match lookupFirst mapping "A" with
  | some name => if name == "" then "id" else name
  | none => "id"

/-- The per-header column-name choice of `convertSheetDataToRows`
(`conflict-resolver.ts` lines 535-538): `column_mapping[letter] || letter`,
so a missing or empty (falsy) mapping falls back to the column letter. -/
def headerColumnName (mapping : List (String × String)) (index : Nat) : String :=
  let letter := indexToColumnLetter index
  match lookupFirst mapping letter with
  | some name => if name == "" then letter else name
  | none => letter

/-- The row-object construction loop of `convertSheetDataToRows`
(`conflict-resolver.ts` lines 541-547): `row[columnNames[j]] = values[i][j]`
for each cell, with JavaScript object-assignment semantics (a repeated column
name overwrites in place). -/
def buildRowObject (columnNames : List String) (rowVals : List Value) : RowData :=
  (columnNames.zip rowVals).foldl (fun row kv => mapSet row kv.1 kv.2) []

/-- Embedding of `convertSheetDataToRows` (`conflict-resolver.ts` lines
531-550, identical in `part_001` lines 307-330): row 0 is the header row, the
header at position j names the column through the mapping, and every later
grid row becomes a row object. -/
def convertSheetDataToRows (mapping : List (String × String))
    (values : List (List Value)) : List RowData :=
  match values with
  | [] => []
  | headers :: rest =>
    let columnNames := (List.range headers.length).map (headerColumnName mapping)
    rest.map fun rowVals => buildRowObject columnNames rowVals

/-- Embedding of `getSheetName` (`conflict-resolver.ts` lines 579-582):
`(this.config.sheet_range || 'Sheet1').split('!')[0] || 'Sheet1'`. -/
def getSheetName (sheetRange : Option String) : String :=
  let range := match sheetRange with
    | some r => if r == "" then "Sheet1" else r
    | none => "Sheet1"
  match range.splitOn "!" with
  | [] => "Sheet1"
  | first :: _ => if first == "" then "Sheet1" else first

/-- Stable insertion step for the JavaScript default `Array.sort` on
strings. -/
def insertString (s : String) : List String → List String
  | [] => [s]
  | x :: xs => if s < x then s :: x :: xs else x :: insertString s xs

/-- JavaScript `Object.keys(...).sort()`: lexicographic string sort
(`conflict-resolver.ts` line 559). -/
def sortStrings : List String → List String
  | [] => []
  | x :: xs => insertString x (sortStrings xs)

/-- Embedding of `convertRowToSheetFormat` (`conflict-resolver.ts` lines
555-567): walk the mapping's column letters in sorted order and emit
`row[columnName] ?? ''` for each (nullish coalescing: `null`/`undefined`
becomes the empty string). -/
def convertRowToSheetFormat (mapping : List (String × String)) (row : RowData) :
    List Value :=
  (sortStrings (mapping.map Prod.fst)).map fun letter =>
    let columnName := (lookupFirst mapping letter).getD "undefined"
    match jsGet row columnName with
    | Value.vNull => Value.vStr ""
    | v => v

/-- A sheet row reference held in the worker's primary-key index
(`conflict-resolver.ts` line 394): the 1-based data-row position (`i + 1`
accounts for the header row) and the row object. -/
structure SheetRowRef where
  index : Nat
  data : RowData

/-- Embedding of the sheet-row indexing loop (`conflict-resolver.ts` lines
394-401): rows whose primary-key cell is neither `undefined` nor `null` are
keyed by `String(rowId)`. -/
def buildSheetRowMap (pk : String) (sheetRows : List RowData) :
    List (String × SheetRowRef) :=
  sheetRows.enum.foldl
    (fun m iv =>
      match jsGet iv.2 pk with
      | Value.vNull => m
      | v => mapSet m v.jsString { index := iv.1 + 1, data := iv.2 })
    []

/-- One element of the `batchUpdates` array (`conflict-resolver.ts` line
404): a `{range, values}` tuple. -/
structure BatchUpdate where
  range : String
  values : List (List Value)

/-- Embedding of the change-log classification loop (`conflict-resolver.ts`
lines 414-457).  An entry whose row snapshot has a falsy primary-key value is
skipped (`if (!rowId) continue`).  INSERT appends; UPDATE batch-updates the
existing sheet row or appends when absent; DELETE clears the cells of the
existing row (an all-empty row of the mapping's width) or does nothing.
Ranges are `sheetName!A(index + 1)` as in lines 436 and 451. -/
def processChangeLogEntries (mapping : List (String × String)) (sheetName : String)
    (pk : String) (sheetRowMap : List (String × SheetRowRef)) :
    List ChangeLogEntry → List BatchUpdate × List (List Value)
  | [] => ([], [])
  | entry :: rest =>
    let tail := processChangeLogEntries mapping sheetName pk sheetRowMap rest
    let rowId := jsGet entry.rowData pk
    if !(jsTruthy rowId) then tail
    else
      match entry.operation with
      | Operation.INSERT =>
        (tail.1, convertRowToSheetFormat mapping entry.rowData :: tail.2)
      | Operation.UPDATE =>
        match mapGet sheetRowMap rowId.jsString with
        | some existingRow =>
          ({ range := sheetName ++ "!A" ++ toString (existingRow.index + 1)
             values := [convertRowToSheetFormat mapping entry.rowData] } :: tail.1,
           tail.2)
        | none =>
          (tail.1, convertRowToSheetFormat mapping entry.rowData :: tail.2)
      | Operation.DELETE =>
        match mapGet sheetRowMap rowId.jsString with
        | some existingRow =>
          ({ range := sheetName ++ "!A" ++ toString (existingRow.index + 1)
             values := [List.replicate mapping.length (Value.vStr "")] } :: tail.1,
           tail.2)
        | none => tail

/-- The observable outcome of one T→S run that reached the write/mark phase:
the sheet writes it issued, the change-log ids it passed to
`markChangesProcessed`, and the change log after marking. -/
structure DbToSheetOutcome where
  batchUpdates : List BatchUpdate
  rowsToAppend : List (List Value)
  markedIds : List Nat
  logAfter : List ChangeLogEntry

/-- Embedding of the change-log consumption path of `DbToSheetWorker.execute`
(`conflict-resolver.ts` lines 359-494): fetch unprocessed entries excluding
`source_tag = 'from_sheet'` with limit 1000 (lines 362-366); return early
when there are none (lines 368-377); otherwise convert the sheet grid, index
its rows by primary key, classify every entry into batch updates and appends,
and mark ids processed.  Line 479 builds the marked-id list as
`changeLogEntries.map((e) => e.id)` — all fetched entries, including the ones
the classification loop skipped. -/
def DbToSheetWorker.runOnLog (mapping : List (String × String))
    (sheetRange : Option String) (tbl : String) (sheetValues : List (List Value))
    (log : List ChangeLogEntry) : Option DbToSheetOutcome :=
  let entries := MySQLAdapter.getChangeLog log tbl
    { processed := some false, excludeSourceTag := some "from_sheet", limit := some 1000 }
  if entries.length == 0 then none
  else
    let pk := getPrimaryKeyColumn mapping
    let sheetRows := convertSheetDataToRows mapping sheetValues
    let sheetRowMap := buildSheetRowMap pk sheetRows
    let cls := processChangeLogEntries mapping (getSheetName sheetRange) pk sheetRowMap entries
    let ids := entries.map fun e => e.id
    some { batchUpdates := cls.1
           rowsToAppend := cls.2
           markedIds := ids
           logAfter := MySQLAdapter.markChangesProcessed log ids }

/-! ## Retry wrapper (`src/backend/src/utils/retry.ts`) -/

/-- Options of `retry` (`retry.ts` lines 6-12).  Delays are rational numbers
of milliseconds (JavaScript numbers; the arithmetic the code performs on them
is exact on rationals).  The `retryableErrors` classifier is passed
separately. -/
structure RetryOptions where
  maxAttempts : Nat
  baseDelay : ℚ
  maxDelay : ℚ
  jitter : Bool

/-- Embedding of `calculateDelay` (`retry.ts` lines 27-38): exponential
backoff capped at `maxDelay`; with jitter enabled the result is
`delay + (rand * 2 - 1) * (delay * 0.2)` where `rand` is the `Math.random()`
draw in `[0, 1)`. -/
def calculateDelay (attempt : Nat) (opts : RetryOptions) (rand : ℚ) : ℚ :=
  let exponentialDelay := opts.baseDelay * 2 ^ attempt
  let delay := min exponentialDelay opts.maxDelay
  if opts.jitter then
    let jitterAmount := delay * (2 / 10)
    delay + (rand * 2 - 1) * jitterAmount
  else delay

/-- The observable behavior of one `retry` call: the value returned or the
error finally thrown (`Except.error none` is the JavaScript
`throw lastError` with `lastError` still `undefined`, reachable only when
`maxAttempts = 0`), the number of times `fn` was invoked, and the sequence of
sleeps taken, in order. -/
structure RetryTrace (ε α : Type) where
  result : Except (Option ε) α
  attemptsMade : Nat
  delays : List ℚ

/-- The rethrow-immediately test of `retry` (`retry.ts` line 58):
`opts.retryableErrors && !opts.retryableErrors(error)` — true exactly when a
classifier was supplied and calls the error non-retryable. -/
def nonRetryable {ε : Type} (classify : Option (ε → Bool)) (e : ε) : Bool :=
  match classify with
  | some cl => !(cl e)
  | none => false

/-- The `for (let attempt = 0; ...)` loop of `retry` (`retry.ts` lines
51-79).  `fn k` is the outcome of the k-th invocation of the wrapped
function, `classify` is the optional `retryableErrors` predicate, and
`rand k` the `Math.random()` draw used for the sleep after attempt k.
`remaining` counts the loop iterations left (`opts.maxAttempts - attempt`).
A non-retryable error is rethrown at once; a retryable error on any attempt
but the last sleeps `calculateDelay attempt` and continues; after the last
attempt the last error is rethrown with no sleep. -/
def retryAux (fn : Nat → Except ε α) (classify : Option (ε → Bool))
    (opts : RetryOptions) (rand : Nat → ℚ) :
    Nat → Nat → Option ε → RetryTrace ε α
  | _, 0, lastError => { result := Except.error lastError, attemptsMade := 0, delays := [] }
  | attempt, remaining + 1, _ =>
    match fn attempt with
    | Except.ok a => { result := Except.ok a, attemptsMade := 1, delays := [] }
    | Except.error e =>
      if nonRetryable classify e then
        { result := Except.error (some e), attemptsMade := 1, delays := [] }
      else if remaining == 0 then
        { result := Except.error (some e), attemptsMade := 1, delays := [] }
      else
        let d := calculateDelay attempt opts (rand attempt)
        let t := retryAux fn classify opts rand (attempt + 1) remaining (some e)
        { result := t.result, attemptsMade := t.attemptsMade + 1, delays := d :: t.delays }

/-- Embedding of `retry` (`retry.ts` lines 43-80). -/
def retry (fn : Nat → Except ε α) (classify : Option (ε → Bool))
    (opts : RetryOptions) (rand : Nat → ℚ) : RetryTrace ε α :=
  retryAux fn classify opts rand 0 opts.maxAttempts none

/-! ## Dead-letter queue (`src/backend/src/sync/dead-letter-queue.ts`) -/

/-- The `failureReason` variants (`dead-letter-queue.ts` line 29). -/
inductive FailureReason where
  | max_retries : FailureReason
  | non_retryable_error : FailureReason
  | timeout : FailureReason
deriving DecidableEq, Repr

/-- A dead-letter entry (`dead-letter-queue.ts` lines 21-30). -/
structure DeadLetterEntry where
  jobId : String
  payload : Value
  error : String
  stackTrace : Option String
  attemptsMade : Nat
  firstAttemptAt : Int
  lastAttemptAt : Int
  failureReason : FailureReason

/-- The DLQ capacity (`dead-letter-queue.ts` line 34). -/
def dlqMaxSize : Nat := 1000

/-- Embedding of `DeadLetterQueue.add` (`dead-letter-queue.ts` lines 39-62):
push the entry, then `shift()` the oldest entry off the front when the length
exceeds `maxSize`. -/
def DeadLetterQueue.add (entries : List DeadLetterEntry) (entry : DeadLetterEntry) :
    List DeadLetterEntry :=
  let pushed := entries ++ [entry]
  if pushed.length > dlqMaxSize then pushed.tail else pushed

/-! ## Circuit breaker (`src/backend/src/utils/circuit-breaker.ts`) -/

/-- Breaker states (`circuit-breaker.ts` lines 6-10). -/
inductive CircuitBreakerState where
  | CLOSED : CircuitBreakerState
  | OPEN : CircuitBreakerState
  | HALF_OPEN : CircuitBreakerState
deriving DecidableEq, Repr

/-- Breaker options (`circuit-breaker.ts` lines 12-17); times are epoch
milliseconds / millisecond durations. -/
structure CircuitBreakerOptions where
  failureThreshold : Nat
  successThreshold : Nat
  timeout : Int
  windowDuration : Int

/-- The breaker's mutable fields (`circuit-breaker.ts` lines 20-26). -/
structure CircuitBreaker where
  state : CircuitBreakerState
  failures : Nat
  successes : Nat
  lastFailureTime : Int
  failureTimestamps : List Int
  options : CircuitBreakerOptions

/-- Embedding of `CircuitBreaker.onSuccess` (`circuit-breaker.ts` lines
60-71): clear the failure window; in HALF_OPEN, count the success and close
the breaker once `successThreshold` is reached. -/
def CircuitBreaker.onSuccess (cb : CircuitBreaker) : CircuitBreaker :=
  let cb1 := { cb with failureTimestamps := [] }
  if cb1.state = CircuitBreakerState.HALF_OPEN then
    let cb2 := { cb1 with successes := cb1.successes + 1 }
    if cb2.successes ≥ cb2.options.successThreshold then
      { cb2 with state := CircuitBreakerState.CLOSED, failures := 0 }
    else cb2
  else cb1

/-- Embedding of `CircuitBreaker.onFailure` (`circuit-breaker.ts` lines
73-96): record the failure time, push it into the sliding window and evict
stale timestamps; a failure in HALF_OPEN reopens immediately; otherwise the
breaker opens when the window reaches `failureThreshold`. -/
def CircuitBreaker.onFailure (cb : CircuitBreaker) (now : Int) : CircuitBreaker :=
  let cb1 := { cb with
    lastFailureTime := now
    failureTimestamps :=
      (cb.failureTimestamps ++ [now]).filter fun ts => now - ts < cb.options.windowDuration }
  if cb1.state = CircuitBreakerState.HALF_OPEN then
    { cb1 with state := CircuitBreakerState.OPEN }
  else if cb1.failureTimestamps.length ≥ cb1.options.failureThreshold then
    { cb1 with state := CircuitBreakerState.OPEN }
  else cb1

/-- The outcome of one `execute` call: `rejected` is the
`Circuit breaker ... is OPEN` throw, taken before the wrapped function is
invoked; the other two report the wrapped function's own outcome. -/
inductive ExecOutcome (ε α : Type) where
  | rejected : ExecOutcome ε α
  | succeeded : α → ExecOutcome ε α
  | failed : ε → ExecOutcome ε α
deriving DecidableEq, Repr

/-- The protected section of `CircuitBreaker.execute` (`circuit-breaker.ts`
lines 50-57): run the wrapped function and fold its outcome into the breaker
state. -/
def CircuitBreaker.runProtected (cb : CircuitBreaker) (now : Int)
    (fn : Except ε α) : ExecOutcome ε α × CircuitBreaker :=
  match fn with
  | Except.ok a => (ExecOutcome.succeeded a, cb.onSuccess)
  | Except.error e => (ExecOutcome.failed e, cb.onFailure now)

/-- Embedding of `CircuitBreaker.execute` (`circuit-breaker.ts` lines 38-58):
in OPEN, move to HALF_OPEN when more than `timeout` has elapsed since the
last failure, otherwise throw without touching the wrapped function; in all
other cases run the wrapped function.  `fn` is the wrapped function's outcome
at this call, `now` the `Date.now()` reading. -/
def CircuitBreaker.execute (cb : CircuitBreaker) (now : Int)
    (fn : Except ε α) : ExecOutcome ε α × CircuitBreaker :=
  if cb.state = CircuitBreakerState.OPEN then
    if now - cb.lastFailureTime > cb.options.timeout then
      CircuitBreaker.runProtected
        { cb with state := CircuitBreakerState.HALF_OPEN, successes := 0 } now fn
    else (ExecOutcome.rejected, cb)
  else CircuitBreaker.runProtected cb now fn

/-! ## Concrete sample data for witnesses and counterexamples -/

/-- A change-log row with change id 1 but the later timestamp. -/
def entryId1Late : ChangeLogEntry :=
  { id := 1, tableName := "users", operation := Operation.UPDATE
    rowData := [("id", Value.vInt 1), ("name", Value.vStr "Alice")]
    sourceTag := none, changedAt := 10, processed := false }

/-- A change-log row with change id 2 but the earlier timestamp. -/
def entryId2Early : ChangeLogEntry :=
  { id := 2, tableName := "users", operation := Operation.UPDATE
    rowData := [("id", Value.vInt 2), ("name", Value.vStr "Bob")]
    sourceTag := some "external", changedAt := 5, processed := false }

/-- A change-log row whose snapshot lacks the primary-key column. -/
def entryNoPk : ChangeLogEntry :=
  { id := 7, tableName := "users", operation := Operation.UPDATE
    rowData := [("name", Value.vStr "ghost")]
    sourceTag := some "external", changedAt := 3, processed := false }

/-- A sample dead-letter entry. -/
def dlqEntrySample : DeadLetterEntry :=
  { jobId := "job-1", payload := Value.vNull, error := "boom", stackTrace := none
    attemptsMade := 5, firstAttemptAt := 0, lastAttemptAt := 60
    failureReason := FailureReason.max_retries }

/-- A detected conflict with distinct timestamps (table side later). -/
def conflictDbLater : DetectedConflict :=
  { rowId := RowKey.num 2
    sheetValue := [("id", Value.vInt 2), ("name", Value.vStr "Robert")]
    dbValue := [("id", Value.vInt 2), ("name", Value.vStr "Bobby")]
    sheetTimestamp := 80, dbTimestamp := 90, conflictingColumns := ["name"] }

/-- A detected conflict with equal spreadsheet and table timestamps. -/
def conflictTie : DetectedConflict :=
  { rowId := RowKey.num 2
    sheetValue := [("id", Value.vInt 2), ("name", Value.vStr "Robert")]
    dbValue := [("id", Value.vInt 2), ("name", Value.vStr "Bobby")]
    sheetTimestamp := 100, dbTimestamp := 100, conflictingColumns := ["name"] }

/-- A current row set for the change detector: row 1 renamed, row 3 new. -/
def currentRowsSample : List RowData :=
  [[("id", Value.vStr "1"), ("name", Value.vStr "Alicia")],
   [("id", Value.vStr "3"), ("name", Value.vStr "Carol")]]

/-- A baseline row set for the change detector: rows 1 and 2. -/
def baselineRowsSample : List RowData :=
  [[("id", Value.vStr "1"), ("name", Value.vStr "Alice")],
   [("id", Value.vStr "2"), ("name", Value.vStr "Bob")]]

/-- A wrapped function that fails on every invocation (attempt k throws the
error `k + 1`). -/
def retryFnSample : Nat → Except Nat Nat := fun k => Except.error (k + 1)

/-- Retry options: two attempts, 100 ms base, 60 s cap, jitter off. -/
def retryOptsSample : RetryOptions :=
  { maxAttempts := 2, baseDelay := 100, maxDelay := 60000, jitter := false }

/-- A circuit breaker currently OPEN after a failure at time 1000. -/
def breakerOpenSample : CircuitBreaker :=
  { state := CircuitBreakerState.OPEN, failures := 5, successes := 0
    lastFailureTime := 1000, failureTimestamps := [1000]
    options := { failureThreshold := 5, successThreshold := 2
                 timeout := 300000, windowDuration := 60000 } }

/-! # Theorems -/

/-- C1: The claim states that every database write of the S→T worker carries
`source_tag = 'from_sheet'` and that the T→S scan therefore never selects the
resulting change-log rows.  Evaluating the code at a run with one insert
refutes this: the worker's insert call passes the metadata object in the
`data` parameter position and leaves the `metadata` parameter `undefined`, so
the session variable is never set and the insert trigger records
`source_tag = 'external'`; such a row passes the T→S scan's exclusion filter
(and is in fact returned by `getChangeLog`), while the update path does
deliver its tag.  This contradicts the worker's own loop-prevention comment
("All DB writes are tagged with sourceTag='from_sheet'"). -/
theorem sheetToDb_insert_tag_is_external :
    triggerSourceTag (sessionTagForWrite
      (SheetToDbWorker.insertCallArgs [("id", Value.vInt 3)] "op-1").metadataArg) = "external"
    ∧ "external" ≠ "from_sheet"
    ∧ triggerSourceTag (sessionTagForWrite (SheetToDbWorker.updateCallMetadata "op-1")) = "from_sheet"
    ∧ (MySQLAdapter.getChangeLog
        [{ id := 9, tableName := "users", operation := Operation.INSERT
           rowData := [("id", Value.vInt 3)], sourceTag := some "external"
           changedAt := 40, processed := false }] "users"
        { processed := some false, excludeSourceTag := some "from_sheet", limit := some 1000 }).length = 1 := by
  refine ⟨rfl, by decide, rfl, rfl⟩

/-- C3: The claim states that all writes of one S→T run execute inside a
single target-database transaction, so a failing write leaves the target
state unchanged.  Evaluating the write model at a run of two updates whose
second statement throws refutes the atomicity consequence: the adapter's
mutation methods each run on their own auto-committing pooled connection
rather than on the transaction's connection, so after rollback the first
update remains committed. -/
theorem sheetToDb_writes_not_atomic :
    SheetToDbWorker.applyChanges
      [TargetWrite.upd [("name", Value.vStr "Alicia")] [("id", Value.vInt 1)]
         (SheetToDbWorker.updateCallMetadata "op-1"),
       TargetWrite.upd [("name", Value.vStr "Bobby")] [("id", Value.vInt 2)]
         (SheetToDbWorker.updateCallMetadata "op-1")]
      (fun i => i == 1)
      { committed := [], txnPending := [] }
    = ({ committed := [TargetWrite.upd [("name", Value.vStr "Alicia")] [("id", Value.vInt 1)]
           (SheetToDbWorker.updateCallMetadata "op-1")], txnPending := [] }, false)
    ∧ [TargetWrite.upd [("name", Value.vStr "Alicia")] [("id", Value.vInt 1)]
         (SheetToDbWorker.updateCallMetadata "op-1")] ≠ ([] : List TargetWrite) := by
  exact ⟨rfl, by simp⟩

/-- C4: The claim states that an S→T run with a non-empty change set runs
conflict detection against the table-side change log and, for an input where
the same row changed on both sides with overlapping columns, detects at least
one conflict.  The worker's `detectConflicts` is stubbed: it returns the
empty list for every input, so the run persists no Conflict record — even
though `ConflictResolver.detectConflicts`, fed the corresponding input,
does report the conflict. -/
theorem sheetToDb_conflict_detection_stubbed :
    SheetToDbWorker.detectConflicts
      { inserts := []
        updates := [(RowKey.num 2, [("id", Value.vInt 2), ("name", Value.vStr "Robert")])]
        deletes := [] } (some 50) = []
    ∧ (ConflictResolver.detectConflicts
        { sheetChanges := [{ rowId := RowKey.num 2
                             data := [("id", Value.vInt 2), ("name", Value.vStr "Robert")]
                             timestamp := 120, columns := ["name"] }]
          dbChanges := [{ rowId := RowKey.num 2
                          data := [("id", Value.vInt 2), ("name", Value.vStr "Bobby")]
                          timestamp := 130, columns := ["name"] }]
          lastSyncTime := 50 }).length = 1
    ∧ (ConflictResolver.detectConflicts
        { sheetChanges := [{ rowId := RowKey.num 2
                             data := [("id", Value.vInt 2), ("name", Value.vStr "Robert")]
                             timestamp := 120, columns := ["name"] }]
          dbChanges := [{ rowId := RowKey.num 2
                          data := [("id", Value.vInt 2), ("name", Value.vStr "Bobby")]
                          timestamp := 130, columns := ["name"] }]
          lastSyncTime := 50 }).map (fun c => c.conflictingColumns) = [["name"]] := by
  exact ⟨rfl, rfl, rfl⟩

/-- C2 counterexample: the claim states that under last-write-wins an equal
pair of timestamps resolves in favor of the spreadsheet; on a conflict with
equal timestamps the code resolves in favor of the table side. -/
theorem resolveLWW_tie_goes_to_db :
    (ConflictResolver.resolveConflict conflictTie ConflictStrategy.LAST_WRITE_WINS).winner = Winner.db
    ∧ Winner.db ≠ Winner.sheet
    ∧ conflictTie.sheetTimestamp = conflictTie.dbTimestamp := by
  exact ⟨rfl, by decide, rfl⟩

/-- C2 (amended): for every conflict resolved under last-write-wins, the side
with the strictly later timestamp wins with its value as the resolved value;
when the spreadsheet timestamp is not strictly later — in particular on a
tie — the table side wins with the table value. -/
theorem resolveLWW_strictly_later_wins (conflict : DetectedConflict) :
    (conflict.sheetTimestamp > conflict.dbTimestamp →
      (ConflictResolver.resolveConflict conflict ConflictStrategy.LAST_WRITE_WINS).winner = Winner.sheet
      ∧ (ConflictResolver.resolveConflict conflict ConflictStrategy.LAST_WRITE_WINS).resolvedValue
          = some conflict.sheetValue)
    ∧ (conflict.sheetTimestamp ≤ conflict.dbTimestamp →
      (ConflictResolver.resolveConflict conflict ConflictStrategy.LAST_WRITE_WINS).winner = Winner.db
      ∧ (ConflictResolver.resolveConflict conflict ConflictStrategy.LAST_WRITE_WINS).resolvedValue
          = some conflict.dbValue) := by
  constructor
  · intro h
    simp [ConflictResolver.resolveConflict, ConflictResolver.resolveLWW, h]
  · intro h
    have h2 : ¬ (conflict.sheetTimestamp > conflict.dbTimestamp) := by omega
    simp [ConflictResolver.resolveConflict, ConflictResolver.resolveLWW, h2]

/-- Witness for the amended C2 theorem at a concrete conflict whose table
timestamp is the later one. -/
theorem resolveLWW_strictly_later_wins_witness :
    (ConflictResolver.resolveConflict conflictDbLater ConflictStrategy.LAST_WRITE_WINS).winner = Winner.db
    ∧ (ConflictResolver.resolveConflict conflictDbLater ConflictStrategy.LAST_WRITE_WINS).resolvedValue
        = some conflictDbLater.dbValue := by
  exact (resolveLWW_strictly_later_wins conflictDbLater).2 (by decide)

/-- C10: while the breaker is OPEN and no more than `timeout` has elapsed
since the last recorded failure, `execute` rejects the call: it returns the
breaker-open error, leaves the breaker exactly as it was (hence still OPEN),
and its outcome is independent of the wrapped function, which is therefore
never run during the cool-down window. -/
theorem breaker_open_cooldown_rejects {ε α : Type} (cb : CircuitBreaker) (now : Int)
    (fn fn2 : Except ε α)
    (hOpen : cb.state = CircuitBreakerState.OPEN)
    (hCool : now - cb.lastFailureTime ≤ cb.options.timeout) :
    CircuitBreaker.execute cb now fn = (ExecOutcome.rejected, cb)
    ∧ (CircuitBreaker.execute cb now fn).2.state = CircuitBreakerState.OPEN
    ∧ CircuitBreaker.execute cb now fn = CircuitBreaker.execute cb now fn2 := by
  have hc : ¬ (now - cb.lastFailureTime > cb.options.timeout) := by omega
  refine ⟨?_, ?_, ?_⟩ <;> simp [CircuitBreaker.execute, hOpen, hc]

/-- Witness for the C10 theorem: a breaker that opened at time 1000 rejects a
call at time 2000 (its 5-minute cool-down has not elapsed). -/
theorem breaker_open_cooldown_rejects_witness :
    CircuitBreaker.execute breakerOpenSample 2000 (Except.ok ())
      = ((ExecOutcome.rejected : ExecOutcome Unit Unit), breakerOpenSample)
    ∧ (CircuitBreaker.execute breakerOpenSample 2000 ((Except.ok ()) : Except Unit Unit)).2.state
      = CircuitBreakerState.OPEN := by
  have h := breaker_open_cooldown_rejects breakerOpenSample 2000
    ((Except.ok ()) : Except Unit Unit) (Except.error ()) rfl (by decide)
  exact ⟨h.1, h.2.1⟩

/-- Folding `DeadLetterQueue.add` over a batch of entries keeps exactly the
last `dlqMaxSize` entries of the accumulated stream, provided the starting
queue is within capacity. -/
theorem dlq_foldl_add_window (es : List DeadLetterEntry) :
    ∀ l : List DeadLetterEntry, l.length ≤ dlqMaxSize →
      es.foldl DeadLetterQueue.add l = (l ++ es).drop ((l ++ es).length - dlqMaxSize) := by
  induction es with
  | nil =>
    intro l h
    simp only [List.foldl_nil, List.append_nil]
    rw [Nat.sub_eq_zero_of_le h, List.drop_zero]
  | cons e es ih =>
    intro l h
    rw [List.foldl_cons]
    by_cases hlt : l.length < dlqMaxSize
    · have hadd : DeadLetterQueue.add l e = l ++ [e] := by
        unfold DeadLetterQueue.add
        rw [if_neg]
        simp only [List.length_append, List.length_singleton]
        omega
      rw [hadd, ih (l ++ [e]) (by simp only [List.length_append, List.length_singleton]; omega)]
      rw [List.append_assoc, List.singleton_append]
    · have hl : l.length = dlqMaxSize := by omega
      cases l with
      | nil => simp [dlqMaxSize] at hl
      | cons a t =>
        simp only [List.length_cons] at hl
        have hadd : DeadLetterQueue.add (a :: t) e = t ++ [e] := by
          unfold DeadLetterQueue.add
          rw [if_pos]
          · simp
          · simp only [List.cons_append, List.length_cons, List.length_append]
            omega
        have ht : t.length + 1 = dlqMaxSize := hl
        rw [hadd, ih (t ++ [e]) (by simp only [List.length_append, List.length_singleton]; omega)]
        have hidx1 : ((t ++ [e]) ++ es).length - dlqMaxSize = es.length := by
          simp only [List.length_append, List.length_singleton]
          omega
        have hidx2 : ((a :: t) ++ e :: es).length - dlqMaxSize = es.length + 1 := by
          simp only [List.cons_append, List.length_cons, List.length_append]
          omega
        rw [hidx1, hidx2, List.append_assoc, List.singleton_append, List.cons_append,
          List.drop_succ_cons]

/-- C8: the dead-letter queue is a bounded FIFO of capacity 1000: an add never
grows the queue past 1000; an add against a full queue evicts exactly the
oldest entry (the result is the old tail plus the new entry at the back); and
adding 1001 entries into an empty queue yields precisely the last 1000 of
them in insertion order — the first entry is gone, all others remain. -/
theorem dlq_bounded_fifo :
    dlqMaxSize = 1000
    ∧ (∀ (l : List DeadLetterEntry) (e : DeadLetterEntry),
        l.length ≤ 1000 → (DeadLetterQueue.add l e).length ≤ 1000)
    ∧ (∀ (l : List DeadLetterEntry) (e : DeadLetterEntry),
        l.length = 1000 → DeadLetterQueue.add l e = l.tail ++ [e])
    ∧ (∀ es : List DeadLetterEntry, es.length = 1001 →
        es.foldl DeadLetterQueue.add [] = es.tail) := by
  refine ⟨rfl, ?_, ?_, ?_⟩
  · intro l e h
    unfold DeadLetterQueue.add
    by_cases hc : (l ++ [e]).length > dlqMaxSize
    · rw [if_pos hc]
      have htl : ((l ++ [e]).tail).length = l.length := by
        cases l with
        | nil => simp [dlqMaxSize] at hc
        | cons a t => simp
      rw [htl]
      exact h
    · rw [if_neg hc]
      simp only [dlqMaxSize, Nat.not_lt] at hc
      exact hc
  · intro l e h
    unfold DeadLetterQueue.add
    rw [if_pos]
    · cases l with
      | nil => simp [dlqMaxSize] at h
      | cons a t => simp
    · simp only [List.length_append, List.length_singleton, dlqMaxSize]
      omega
  · intro es h
    rw [dlq_foldl_add_window es [] (by simp [dlqMaxSize])]
    simp only [List.nil_append, dlqMaxSize, h]
    rw [show 1001 - 1000 = 1 from rfl, List.drop_one]

/-- Witness for the C8 theorem: an add into an empty queue stays within
capacity, and folding 1001 copies of a sample entry into an empty queue
leaves exactly the last 1000. -/
theorem dlq_bounded_fifo_witness :
    (DeadLetterQueue.add [] dlqEntrySample).length ≤ 1000
    ∧ (List.replicate 1001 dlqEntrySample).foldl DeadLetterQueue.add []
        = (List.replicate 1001 dlqEntrySample).tail := by
  exact ⟨dlq_bounded_fifo.2.1 [] dlqEntrySample (by simp),
         dlq_bounded_fifo.2.2.2 _ (List.length_replicate 1001 dlqEntrySample)⟩

/-- Unfolding of the change-log WHERE clause for a call passing
`processed: false` and a non-empty exclude tag. -/
theorem matchesChangeLogWhere_spec (tbl exclude : String) (lim : Option Nat)
    (hex : exclude ≠ "") (e : ChangeLogEntry) :
    matchesChangeLogWhere tbl
      { processed := some false, excludeSourceTag := some exclude, limit := lim } e = true
    ↔ e.tableName = tbl ∧ e.processed = false
      ∧ (e.sourceTag = none ∨ e.sourceTag ≠ some exclude) := by
  unfold matchesChangeLogWhere
  have hbe : (exclude == "") = false := by
    simp only [beq_eq_false_iff_ne, ne_eq]
    exact hex
  cases hst : e.sourceTag with
  | none => simp [hbe, hst]
  | some s =>
    simp only [hbe, hst, Bool.false_eq_true, if_false, Bool.and_eq_true, beq_iff_eq,
      Bool.not_eq_true', beq_eq_false_iff_ne, ne_eq, Option.some.injEq]
    constructor
    · rintro ⟨⟨h1, h2⟩, h3⟩
      exact ⟨h1, h2, Or.inr h3⟩
    · rintro ⟨h1, h2, h3⟩
      refine ⟨⟨h1, h2⟩, ?_⟩
      cases h3 with
      | inl h => exact absurd h (by simp)
      | inr h => exact h

/-- C6 counterexample: the claim states that `getChangeLog` returns rows
ordered by change id ascending; on a log whose changed-at order disagrees
with the id order, the rows come back ordered by `changed_at` — ids `[2, 1]`
— not by id. -/
theorem getChangeLog_not_ordered_by_id :
    (MySQLAdapter.getChangeLog [entryId1Late, entryId2Early] "users"
      { processed := some false, excludeSourceTag := some "from_sheet", limit := some 1000 }).map
        (fun e => e.id) = [2, 1]
    ∧ idsAscending (MySQLAdapter.getChangeLog [entryId1Late, entryId2Early] "users"
      { processed := some false, excludeSourceTag := some "from_sheet", limit := some 1000 }) = false := by
  exact ⟨rfl, rfl⟩

/-- C6 (amended): for every `getChangeLog` call passing `processed: false`, a
non-empty exclude tag and a non-zero limit, every returned row belongs to the
adapter's table and satisfies `processed = false` and
`source_tag IS NULL OR source_tag != exclude`; the result is ordered by the
changed-at timestamp ascending (not by change id); at most `limit` rows are
returned; and whenever the matching rows fit within the limit, every matching
row of the log is returned.  The adapter itself applies no default limit: a
LIMIT clause exists only when a limit option is supplied (callers pass
1000). -/
theorem getChangeLog_characterization (log : List ChangeLogEntry) (tbl exclude : String)
    (limit : Nat) (hex : exclude ≠ "") (hlim : limit ≠ 0) :
    (∀ e ∈ MySQLAdapter.getChangeLog log tbl
        { processed := some false, excludeSourceTag := some exclude, limit := some limit },
      e.tableName = tbl ∧ e.processed = false
        ∧ (e.sourceTag = none ∨ e.sourceTag ≠ some exclude))
    ∧ List.Sorted changedAtLe (MySQLAdapter.getChangeLog log tbl
        { processed := some false, excludeSourceTag := some exclude, limit := some limit })
    ∧ (MySQLAdapter.getChangeLog log tbl
        { processed := some false, excludeSourceTag := some exclude, limit := some limit }).length ≤ limit
    ∧ ((log.filter (matchesChangeLogWhere tbl
          { processed := some false, excludeSourceTag := some exclude, limit := some limit })).length ≤ limit →
        ∀ e ∈ log, e.tableName = tbl → e.processed = false →
          (e.sourceTag = none ∨ e.sourceTag ≠ some exclude) →
          e ∈ MySQLAdapter.getChangeLog log tbl
            { processed := some false, excludeSourceTag := some exclude, limit := some limit }) := by
  have hres : MySQLAdapter.getChangeLog log tbl
      { processed := some false, excludeSourceTag := some exclude, limit := some limit }
      = (sortByChangedAt (log.filter (matchesChangeLogWhere tbl
          { processed := some false, excludeSourceTag := some exclude, limit := some limit }))).take limit := by
    unfold MySQLAdapter.getChangeLog applyLimit
    simp [hlim]
  refine ⟨?_, ?_, ?_, ?_⟩
  · intro e he
    rw [hres] at he
    have h2 : e ∈ sortByChangedAt (log.filter (matchesChangeLogWhere tbl
        { processed := some false, excludeSourceTag := some exclude, limit := some limit })) :=
      List.take_subset limit _ he
    have h3 : e ∈ log.filter (matchesChangeLogWhere tbl
        { processed := some false, excludeSourceTag := some exclude, limit := some limit }) :=
      (List.perm_insertionSort changedAtLe _).mem_iff.mp h2
    exact (matchesChangeLogWhere_spec tbl exclude (some limit) hex e).mp (List.mem_filter.mp h3).2
  · rw [hres]
    exact List.Pairwise.sublist (List.take_sublist limit _)
      (List.sorted_insertionSort changedAtLe _)
  · rw [hres]
    exact List.length_take_le limit _
  · intro hcount e hmem h1 h2 h3
    have hp : matchesChangeLogWhere tbl
        { processed := some false, excludeSourceTag := some exclude, limit := some limit } e = true :=
      (matchesChangeLogWhere_spec tbl exclude (some limit) hex e).mpr ⟨h1, h2, h3⟩
    have hf : e ∈ log.filter (matchesChangeLogWhere tbl
        { processed := some false, excludeSourceTag := some exclude, limit := some limit }) :=
      List.mem_filter.mpr ⟨hmem, hp⟩
    have hlen : (sortByChangedAt (log.filter (matchesChangeLogWhere tbl
        { processed := some false, excludeSourceTag := some exclude, limit := some limit }))).length ≤ limit := by
      unfold sortByChangedAt
      rw [List.length_insertionSort]
      exact hcount
    rw [hres, List.take_of_length_le hlen]
    exact (List.perm_insertionSort changedAtLe _).mem_iff.mpr hf

/-- Witness for the amended C6 theorem at a concrete two-row log. -/
theorem getChangeLog_characterization_witness :
    (MySQLAdapter.getChangeLog [entryId1Late, entryId2Early] "users"
      { processed := some false, excludeSourceTag := some "from_sheet", limit := some 1000 }).length ≤ 1000
    ∧ List.Sorted changedAtLe (MySQLAdapter.getChangeLog [entryId1Late, entryId2Early] "users"
      { processed := some false, excludeSourceTag := some "from_sheet", limit := some 1000 }) := by
  have h := getChangeLog_characterization [entryId1Late, entryId2Early] "users" "from_sheet"
    1000 (by decide) (by decide)
  exact ⟨h.2.2.1, h.2.1⟩

/-- Looking up a key after a `Map.set`: the set key reads back the new value,
all other keys are unaffected. -/
theorem mapGet_mapSet {κ α : Type} [DecidableEq κ] (m : List (κ × α)) (k k' : κ) (v : α) :
    mapGet (mapSet m k v) k' = if k' = k then some v else mapGet m k' := by
  induction m with
  | nil =>
    simp only [mapSet, mapGet]
    by_cases h : k = k'
    · rw [if_pos h, if_pos h.symm]
    · rw [if_neg h, if_neg (fun he : k' = k => h he.symm)]
  | cons kv rest ih =>
    obtain ⟨k0, v0⟩ := kv
    simp only [mapSet]
    by_cases h0 : k0 = k
    · rw [if_pos h0]
      simp only [mapGet]
      by_cases h : k0 = k'
      · rw [if_pos h, if_pos (h0.symm.trans h).symm]
      · rw [if_neg h, if_neg h,
          if_neg (fun he : k' = k => h (h0.trans he.symm))]
    · rw [if_neg h0]
      simp only [mapGet]
      by_cases h : k0 = k'
      · have hkk : ¬ (k' = k) := fun he => h0 (h.trans he)
        rw [if_pos h, if_neg hkk, if_pos h]
      · rw [if_neg h, ih, if_neg h]

/-- A key is present in the built map exactly when it is a usable primary-key
value of one of the rows (generalized over the loop accumulator). -/
theorem mapGet_buildMapFold_isSome (pk : String) (rows : List RowData) :
    ∀ (m : List (RowKey × RowData)) (k : RowKey),
      (mapGet (rows.foldl (buildMapStep pk) m) k).isSome = true
      ↔ (mapGet m k).isSome = true ∨ k ∈ keysOf pk rows := by
  induction rows with
  | nil => intro m k; simp [keysOf]
  | cons r rest ih =>
    intro m k
    rw [List.foldl_cons]
    cases hr : getPrimaryKeyValue pk r with
    | none =>
      rw [show buildMapStep pk m r = m by unfold buildMapStep; rw [hr], ih]
      simp [keysOf, List.filterMap_cons, hr]
    | some k0 =>
      rw [show buildMapStep pk m r = mapSet m k0 r by unfold buildMapStep; rw [hr], ih]
      rw [mapGet_mapSet]
      by_cases hk : k = k0
      · simp [hk, keysOf, List.filterMap_cons, hr]
      · simp [hk, keysOf, List.filterMap_cons, hr]

/-- A value read back from the built map is one of the rows, keyed by its own
primary-key value (generalized over the loop accumulator). -/
theorem mapGet_buildMapFold_source (pk : String) (rows : List RowData) :
    ∀ (m : List (RowKey × RowData)) (k : RowKey) (v : RowData),
      mapGet (rows.foldl (buildMapStep pk) m) k = some v →
      mapGet m k = some v ∨ (v ∈ rows ∧ getPrimaryKeyValue pk v = some k) := by
  induction rows with
  | nil => intro m k v h; exact Or.inl h
  | cons r rest ih =>
    intro m k v h
    rw [List.foldl_cons] at h
    cases hr : getPrimaryKeyValue pk r with
    | none =>
      rw [show buildMapStep pk m r = m by unfold buildMapStep; rw [hr]] at h
      rcases ih m k v h with h1 | h2
      · exact Or.inl h1
      · exact Or.inr ⟨List.mem_cons_of_mem r h2.1, h2.2⟩
    | some k0 =>
      rw [show buildMapStep pk m r = mapSet m k0 r by unfold buildMapStep; rw [hr]] at h
      rcases ih (mapSet m k0 r) k v h with h1 | h2
      · rw [mapGet_mapSet] at h1
        by_cases hk : k = k0
        · rw [if_pos hk] at h1
          have hv : v = r := by injection h1 with h1; exact h1.symm
          subst hv
          subst hk
          exact Or.inr ⟨List.mem_cons_self v rest, hr⟩
        · rw [if_neg hk] at h1
          exact Or.inl h1
      · exact Or.inr ⟨List.mem_cons_of_mem r h2.1, h2.2⟩

/-- A key is present in the detector's map exactly when it is a usable
primary-key value of one of the rows. -/
theorem mapGet_buildMap_isSome (pk : String) (rows : List RowData) (k : RowKey) :
    (mapGet (buildMap pk rows) k).isSome = true ↔ k ∈ keysOf pk rows := by
  unfold buildMap
  rw [mapGet_buildMapFold_isSome pk rows [] k]
  simp [mapGet]

/-- A value read back from the detector's map is one of the rows, keyed by
its own primary-key value. -/
theorem mapGet_buildMap_source (pk : String) (rows : List RowData) (k : RowKey)
    (v : RowData) (h : mapGet (buildMap pk rows) k = some v) :
    v ∈ rows ∧ getPrimaryKeyValue pk v = some k := by
  unfold buildMap at h
  rcases mapGet_buildMapFold_source pk rows [] k v h with h1 | h2
  · simp [mapGet] at h1
  · exact h2

/-- Closed-form description of the inserts/updates pass of the detector. -/
theorem detectInsertsUpdates_eq (opts : ChangeDetectorOptions)
    (bm : List (RowKey × RowData)) (cur : List RowData) :
    detectInsertsUpdates opts bm cur =
      (cur.filter (fun r => match getPrimaryKeyValue opts.primaryKey r with
         | some k => (mapGet bm k).isNone
         | none => false),
       cur.filterMap (fun r => match getPrimaryKeyValue opts.primaryKey r with
         | some k =>
           match mapGet bm k with
           | none => none
           | some b => if hasChanged opts r b then some (k, r) else none
         | none => none)) := by
  induction cur with
  | nil => rfl
  | cons r rest ih =>
    simp only [detectInsertsUpdates, ih]
    cases h : getPrimaryKeyValue opts.primaryKey r with
    | none => simp [List.filter_cons, List.filterMap_cons, h]
    | some k =>
      cases hb : mapGet bm k with
      | none => simp [List.filter_cons, List.filterMap_cons, h, hb]
      | some b =>
        by_cases hc : hasChanged opts r b
        · simp [List.filter_cons, List.filterMap_cons, h, hb, hc]
        · simp [List.filter_cons, List.filterMap_cons, h, hb, hc]

/-- Closed-form description of the deletes pass of the detector. -/
theorem detectDeletes_eq (pk : String) (cm : List (RowKey × RowData))
    (base : List RowData) :
    detectDeletes pk cm base =
      base.filterMap (fun r => match getPrimaryKeyValue pk r with
        | some k =>
          match mapGet cm k with
          | some _ => none
          | none => some k
        | none => none) := by
  induction base with
  | nil => rfl
  | cons r rest ih =>
    simp only [detectDeletes, ih]
    cases h : getPrimaryKeyValue pk r with
    | none => simp [List.filterMap_cons, h]
    | some k =>
      cases hc : mapGet cm k with
      | none => simp [List.filterMap_cons, h, hc]
      | some b => simp [List.filterMap_cons, h, hc]

/-- C5: for row sequences whose rows all carry usable primary-key values, the
detector emits as inserts exactly the current rows whose key is absent from
the baseline key set, in current order; as updates exactly the current rows
whose key is found in the baseline map with at least one non-ignored column
differing under the detector's value equality, in current order; and as
deletes exactly the baseline keys absent from the current key set, in
baseline order.  Every emitted update's key occurs on both sides and comes
with a baseline row it genuinely differs from. -/
theorem detect_characterization (pk : String) (ig : List String)
    (current baseline : List RowData)
    (_h : ∀ r ∈ current ++ baseline, (getPrimaryKeyValue pk r).isSome = true) :
    (detect ⟨pk, ig⟩ current baseline).inserts
      = current.filter (fun r => match getPrimaryKeyValue pk r with
          | some k => decide (k ∉ keysOf pk baseline)
          | none => false)
    ∧ (detect ⟨pk, ig⟩ current baseline).updates
      = current.filterMap (fun r => match getPrimaryKeyValue pk r with
          | some k =>
            match mapGet (buildMap pk baseline) k with
            | none => none
            | some b => if hasChanged ⟨pk, ig⟩ r b then some (k, r) else none
          | none => none)
    ∧ (detect ⟨pk, ig⟩ current baseline).deletes
      = baseline.filterMap (fun r => match getPrimaryKeyValue pk r with
          | some k => if k ∈ keysOf pk current then none else some k
          | none => none)
    ∧ ∀ u ∈ (detect ⟨pk, ig⟩ current baseline).updates,
        u.1 ∈ keysOf pk current ∧ u.1 ∈ keysOf pk baseline
        ∧ ∃ b ∈ baseline, getPrimaryKeyValue pk b = some u.1
            ∧ hasChanged ⟨pk, ig⟩ u.2 b = true := by
  have hupd : (detect ⟨pk, ig⟩ current baseline).updates
      = current.filterMap (fun r => match getPrimaryKeyValue pk r with
          | some k =>
            match mapGet (buildMap pk baseline) k with
            | none => none
            | some b => if hasChanged ⟨pk, ig⟩ r b then some (k, r) else none
          | none => none) := by
    show (detectInsertsUpdates ⟨pk, ig⟩ (buildMap pk baseline) current).2 = _
    rw [detectInsertsUpdates_eq]
  refine ⟨?_, hupd, ?_, ?_⟩
  · show (detectInsertsUpdates ⟨pk, ig⟩ (buildMap pk baseline) current).1 = _
    rw [detectInsertsUpdates_eq]
    refine List.filter_congr ?_
    intro r _
    cases hr : getPrimaryKeyValue pk r with
    | none => rfl
    | some k =>
      by_cases hmem : k ∈ keysOf pk baseline
      · have hs : (mapGet (buildMap pk baseline) k).isSome = true :=
          (mapGet_buildMap_isSome pk baseline k).mpr hmem
        cases ho : mapGet (buildMap pk baseline) k with
        | none => rw [ho] at hs; simp at hs
        | some b => simp [ho, hmem]
      · have hs : ¬ ((mapGet (buildMap pk baseline) k).isSome = true) := by
          rw [mapGet_buildMap_isSome pk baseline k]
          exact hmem
        cases ho : mapGet (buildMap pk baseline) k with
        | none => simp [ho, hmem]
        | some b => rw [ho] at hs; simp at hs
  · show detectDeletes pk (buildMap pk current) baseline = _
    rw [detectDeletes_eq]
    refine List.filterMap_congr ?_
    intro r _
    cases hr : getPrimaryKeyValue pk r with
    | none => rfl
    | some k =>
      by_cases hmem : k ∈ keysOf pk current
      · have hs : (mapGet (buildMap pk current) k).isSome = true :=
          (mapGet_buildMap_isSome pk current k).mpr hmem
        cases ho : mapGet (buildMap pk current) k with
        | none => rw [ho] at hs; simp at hs
        | some b => simp [ho, hmem]
      · have hs : ¬ ((mapGet (buildMap pk current) k).isSome = true) := by
          rw [mapGet_buildMap_isSome pk current k]
          exact hmem
        cases ho : mapGet (buildMap pk current) k with
        | none => simp [ho, hmem]
        | some b => rw [ho] at hs; simp at hs
  · intro u hu
    rw [hupd] at hu
    obtain ⟨r, hr, hf⟩ := List.mem_filterMap.mp hu
    cases hk : getPrimaryKeyValue pk r with
    | none => rw [hk] at hf; simp at hf
    | some k =>
      rw [hk] at hf
      cases hb : mapGet (buildMap pk baseline) k with
      | none => simp [hb] at hf
      | some b =>
        simp only [hb] at hf
        by_cases hc : hasChanged ⟨pk, ig⟩ r b
        · rw [if_pos hc] at hf
          have hu1 : u = (k, r) := by injection hf with hf; exact hf.symm
          subst hu1
          have hsrc := mapGet_buildMap_source pk baseline k b hb
          refine ⟨List.mem_filterMap.mpr ⟨r, hr, hk⟩, ?_, b, hsrc.1, hsrc.2, hc⟩
          exact (mapGet_buildMap_isSome pk baseline k).mp (by rw [hb]; rfl)
        · rw [if_neg hc] at hf; simp at hf

/-- Witness for the C5 theorem on a concrete pair of row sets (row 3 inserted,
row 1 updated, row 2 deleted). -/
theorem detect_characterization_witness :
    (detect ⟨"id", []⟩ currentRowsSample baselineRowsSample).deletes
      = baselineRowsSample.filterMap (fun r => match getPrimaryKeyValue "id" r with
          | some k => if k ∈ keysOf "id" currentRowsSample then none else some k
          | none => none)
    ∧ (detect ⟨"id", []⟩ currentRowsSample baselineRowsSample).inserts
      = currentRowsSample.filter (fun r => match getPrimaryKeyValue "id" r with
          | some k => decide (k ∉ keysOf "id" baselineRowsSample)
          | none => false) := by
  have h := detect_characterization "id" [] currentRowsSample baselineRowsSample (by decide)
  exact ⟨h.2.2.1, h.1⟩

/-- The retry loop makes at most `remaining` further invocations. -/
theorem retryAux_attempts_le {ε α : Type} (fn : Nat → Except ε α)
    (classify : Option (ε → Bool)) (opts : RetryOptions) (rand : Nat → ℚ) :
    ∀ (remaining attempt : Nat) (last : Option ε),
      (retryAux fn classify opts rand attempt remaining last).attemptsMade ≤ remaining := by
  intro remaining
  induction remaining with
  | zero => intro attempt last; simp [retryAux]
  | succ n ih =>
    intro attempt last
    simp only [retryAux]
    cases hf : fn attempt with
    | ok a => simp
    | error e =>
      by_cases hcl : nonRetryable classify e
      · simp [hcl]
      · by_cases hn : n = 0
        · simp [hcl, hn]
        · have hne : (n == 0) = false := by simp [hn]
          simp only [hcl, Bool.false_eq_true, if_false, hne]
          have := ih (attempt + 1) (some e)
          omega

/-- The retry loop makes at least one invocation when any iteration budget
remains. -/
theorem retryAux_attempts_pos {ε α : Type} (fn : Nat → Except ε α)
    (classify : Option (ε → Bool)) (opts : RetryOptions) (rand : Nat → ℚ)
    (n attempt : Nat) (last : Option ε) :
    1 ≤ (retryAux fn classify opts rand attempt (n + 1) last).attemptsMade := by
  simp only [retryAux]
  cases hf : fn attempt with
  | ok a => simp
  | error e =>
    by_cases hcl : nonRetryable classify e
    · simp [hcl]
    · by_cases hn : n = 0
      · simp [hcl, hn]
      · have hne : (n == 0) = false := by simp [hn]
        simp only [hcl, Bool.false_eq_true, if_false, hne]
        omega

/-- The sleeps taken by the retry loop are exactly the backoff delays of its
non-final attempts, indexed from the starting attempt number. -/
theorem retryAux_delays_shape {ε α : Type} (fn : Nat → Except ε α)
    (classify : Option (ε → Bool)) (opts : RetryOptions) (rand : Nat → ℚ) :
    ∀ (remaining attempt : Nat) (last : Option ε),
      (retryAux fn classify opts rand attempt remaining last).delays
        = (List.range ((retryAux fn classify opts rand attempt remaining last).attemptsMade - 1)).map
            (fun i => calculateDelay (attempt + i) opts (rand (attempt + i))) := by
  intro remaining
  induction remaining with
  | zero => intro attempt last; simp [retryAux]
  | succ n ih =>
    intro attempt last
    simp only [retryAux]
    cases hf : fn attempt with
    | ok a => simp
    | error e =>
      by_cases hcl : nonRetryable classify e
      · simp [hcl]
      · by_cases hn : n = 0
        · simp [hcl, hn]
        · have hne : (n == 0) = false := by simp [hn]
          simp only [hcl, Bool.false_eq_true, if_false, hne]
          obtain ⟨m, hm⟩ : ∃ m, n = m + 1 := ⟨n - 1, by omega⟩
          have hpos : 1 ≤ (retryAux fn classify opts rand (attempt + 1) n (some e)).attemptsMade := by
            rw [hm]; exact retryAux_attempts_pos fn classify opts rand m (attempt + 1) (some e)
          rw [ih (attempt + 1) (some e)]
          obtain ⟨a0, ha0⟩ : ∃ a0,
              (retryAux fn classify opts rand (attempt + 1) n (some e)).attemptsMade = a0 + 1 :=
            ⟨(retryAux fn classify opts rand (attempt + 1) n (some e)).attemptsMade - 1,
             by omega⟩
          rw [ha0]
          have hr : a0 + 1 + 1 - 1 = a0 + 1 := by omega
          rw [hr, List.range_succ_eq_map, List.map_cons, List.map_map]
          simp only [Nat.add_zero, Nat.add_succ_sub_one]
          refine congrArg (List.cons _) ?_
          refine List.map_congr_left ?_
          intro i _
          simp only [Function.comp]
          rw [show attempt + 1 + i = attempt + (i + 1) by omega]

/-- A non-retryable error at relative attempt k, after k retryable failures,
stops the loop at once with that error. -/
theorem retryAux_nonretryable {ε α : Type} (fn : Nat → Except ε α) (cl : ε → Bool)
    (opts : RetryOptions) (rand : Nat → ℚ) :
    ∀ (k remaining attempt : Nat) (last : Option ε), k < remaining →
      (∀ j, j < k → ∃ ej, fn (attempt + j) = Except.error ej ∧ cl ej = true) →
      ∀ e, fn (attempt + k) = Except.error e → cl e = false →
        (retryAux fn (some cl) opts rand attempt remaining last).result = Except.error (some e)
        ∧ (retryAux fn (some cl) opts rand attempt remaining last).attemptsMade = k + 1 := by
  intro k
  induction k with
  | zero =>
    intro remaining attempt last hlt _hpre e hfe hcl
    obtain ⟨n, hn⟩ : ∃ n, remaining = n + 1 := ⟨remaining - 1, by omega⟩
    subst hn
    rw [Nat.add_zero] at hfe
    have hnr : nonRetryable (some cl) e = true := by simp [nonRetryable, hcl]
    simp [retryAux, hfe, hnr]
  | succ k ih =>
    intro remaining attempt last hlt hpre e hfe hcl
    obtain ⟨n, hn⟩ : ∃ n, remaining = n + 1 := ⟨remaining - 1, by omega⟩
    subst hn
    obtain ⟨e0, he0, hcl0⟩ := hpre 0 (by omega)
    rw [Nat.add_zero] at he0
    have hnr : nonRetryable (some cl) e0 = false := by simp [nonRetryable, hcl0]
    have hn0 : n ≠ 0 := by omega
    have hne : (n == 0) = false := by simp [hn0]
    have hrec := ih n (attempt + 1) (some e0) (by omega)
      (fun j hj => by
        obtain ⟨ej, hej, hclj⟩ := hpre (j + 1) (by omega)
        exact ⟨ej, by rw [show attempt + 1 + j = attempt + (j + 1) by omega]; exact hej, hclj⟩)
      e (by rw [show attempt + 1 + k = attempt + (k + 1) by omega]; exact hfe) hcl
    simp only [retryAux, he0, hnr, Bool.false_eq_true, if_false, hne]
    exact ⟨hrec.1, by rw [hrec.2]⟩

/-- When every attempt in the budget fails retryably, the loop exhausts the
budget and rethrows the error of the final attempt. -/
theorem retryAux_allfail {ε α : Type} (fn : Nat → Except ε α) (cl : ε → Bool)
    (opts : RetryOptions) (rand : Nat → ℚ) :
    ∀ (remaining attempt : Nat) (last : Option ε) (e : ε), 1 ≤ remaining →
      (∀ j, j < remaining → ∃ ej, fn (attempt + j) = Except.error ej ∧ cl ej = true) →
      fn (attempt + (remaining - 1)) = Except.error e →
        (retryAux fn (some cl) opts rand attempt remaining last).result = Except.error (some e)
        ∧ (retryAux fn (some cl) opts rand attempt remaining last).attemptsMade = remaining := by
  intro remaining
  induction remaining with
  | zero => intro attempt last e h; omega
  | succ n ih =>
    intro attempt last e _h1 hall hfe
    by_cases hn : n = 0
    · subst hn
      rw [show 1 - 1 = 0 from rfl, Nat.add_zero] at hfe
      obtain ⟨e0, he0, hcl0⟩ := hall 0 (by omega)
      rw [Nat.add_zero] at he0
      have hee : e0 = e := by
        rw [hfe] at he0; injection he0 with h2; exact h2.symm
      subst hee
      have hnr : nonRetryable (some cl) e0 = false := by simp [nonRetryable, hcl0]
      simp [retryAux, hfe, hnr]
    · obtain ⟨e0, he0, hcl0⟩ := hall 0 (by omega)
      rw [Nat.add_zero] at he0
      have hnr : nonRetryable (some cl) e0 = false := by simp [nonRetryable, hcl0]
      have hne : (n == 0) = false := by simp [hn]
      have hrec := ih (attempt + 1) (some e0) e (by omega)
        (fun j hj => by
          obtain ⟨ej, hej, hclj⟩ := hall (j + 1) (by omega)
          exact ⟨ej, by rw [show attempt + 1 + j = attempt + (j + 1) by omega]; exact hej, hclj⟩)
        (by rw [show attempt + 1 + (n - 1) = attempt + (n + 1 - 1) by omega]; exact hfe)
      simp only [retryAux, he0, hnr, Bool.false_eq_true, if_false, hne]
      exact ⟨hrec.1, by rw [hrec.2]⟩

/-- C7: `retry` invokes the wrapped function at most `maxAttempts` times; the
sleeps taken are exactly the delays `calculateDelay k` of the non-final
attempts in order (hence no sleep follows the final attempt); with jitter off
the delay after attempt k equals `min (baseDelay * 2 ^ k) maxDelay`, and with
jitter on it deviates from that value by at most 20 percent of it; an error
classified non-retryable is rethrown at once after its attempt with no
further attempts; and when every attempt fails retryably the final attempt's
error is rethrown after exactly `maxAttempts` invocations. -/
theorem retry_characterization {ε α : Type} (fn : Nat → Except ε α) (cl : ε → Bool)
    (opts : RetryOptions) (rand : Nat → ℚ) :
    (retry fn (some cl) opts rand).attemptsMade ≤ opts.maxAttempts
    ∧ (retry fn (some cl) opts rand).delays
        = (List.range ((retry fn (some cl) opts rand).attemptsMade - 1)).map
            (fun k => calculateDelay k opts (rand k))
    ∧ (∀ k : Nat, opts.jitter = false →
        calculateDelay k opts (rand k) = min (opts.baseDelay * 2 ^ k) opts.maxDelay)
    ∧ (∀ (k : Nat) (r : ℚ), opts.jitter = true → 0 ≤ r → r ≤ 1 →
        0 ≤ opts.baseDelay → 0 ≤ opts.maxDelay →
        |calculateDelay k opts r - min (opts.baseDelay * 2 ^ k) opts.maxDelay|
          ≤ (2 / 10) * min (opts.baseDelay * 2 ^ k) opts.maxDelay)
    ∧ (∀ k, k < opts.maxAttempts →
        (∀ j, j < k → ∃ ej, fn j = Except.error ej ∧ cl ej = true) →
        ∀ e, fn k = Except.error e → cl e = false →
          (retry fn (some cl) opts rand).result = Except.error (some e)
          ∧ (retry fn (some cl) opts rand).attemptsMade = k + 1)
    ∧ (1 ≤ opts.maxAttempts →
        (∀ j, j < opts.maxAttempts → ∃ ej, fn j = Except.error ej ∧ cl ej = true) →
        ∀ e, fn (opts.maxAttempts - 1) = Except.error e →
          (retry fn (some cl) opts rand).result = Except.error (some e)
          ∧ (retry fn (some cl) opts rand).attemptsMade = opts.maxAttempts) := by
  refine ⟨?_, ?_, ?_, ?_, ?_, ?_⟩
  · exact retryAux_attempts_le fn (some cl) opts rand opts.maxAttempts 0 none
  · have h := retryAux_delays_shape fn (some cl) opts rand opts.maxAttempts 0 none
    unfold retry
    rw [h]
    refine List.map_congr_left ?_
    intro i _
    rw [Nat.zero_add]
  · intro k hj
    unfold calculateDelay
    simp [hj]
  · intro k r hj hr0 hr1 hb hm
    unfold calculateDelay
    simp only [hj, if_true]
    have hd : (0 : ℚ) ≤ min (opts.baseDelay * 2 ^ k) opts.maxDelay :=
      le_min (mul_nonneg hb (by positivity)) hm
    set d := min (opts.baseDelay * 2 ^ k) opts.maxDelay with hdd
    have h1 : d + (r * 2 - 1) * (d * (2 / 10)) - d = (r * 2 - 1) * (d * (2 / 10)) := by ring
    rw [h1, abs_mul]
    have h2 : |r * 2 - 1| ≤ 1 := by
      rw [abs_le]
      constructor <;> linarith
    have h3 : |d * (2 / 10)| = d * (2 / 10) := abs_of_nonneg (by positivity)
    rw [h3]
    calc |r * 2 - 1| * (d * (2 / 10)) ≤ 1 * (d * (2 / 10)) :=
          mul_le_mul_of_nonneg_right h2 (by positivity)
      _ = (2 / 10) * d := by ring
  · intro k hk hpre e hfe hcl
    have h := retryAux_nonretryable fn cl opts rand k opts.maxAttempts 0 none hk
      (fun j hj => by simpa using hpre j hj) e (by simpa using hfe) hcl
    exact h
  · intro h1 hall e hfe
    have h := retryAux_allfail fn cl opts rand opts.maxAttempts 0 none e h1
      (fun j hj => by simpa using hall j hj) (by simpa using hfe)
    exact h

/-- Witness for the C7 theorem: with two attempts, every invocation failing
retryably, `retry` makes exactly two invocations and rethrows the second
error. -/
theorem retry_characterization_witness :
    (retry retryFnSample (some (fun _ => true)) retryOptsSample (fun _ => 0)).result
      = Except.error (some 2)
    ∧ (retry retryFnSample (some (fun _ => true)) retryOptsSample (fun _ => 0)).attemptsMade = 2
    ∧ (retry retryFnSample (some (fun _ => true)) retryOptsSample (fun _ => 0)).attemptsMade
        ≤ retryOptsSample.maxAttempts := by
  have h := retry_characterization retryFnSample (fun _ => true) retryOptsSample (fun _ => 0)
  have hfin := h.2.2.2.2.2 (by decide)
    (fun j _ => ⟨j + 1, rfl, rfl⟩) 2 rfl
  exact ⟨hfin.1, hfin.2, h.1⟩

/-- A change-log entry whose snapshot has a falsy primary-key value
contributes nothing to the T→S classification output. -/
theorem processChangeLogEntries_skip (mapping : List (String × String))
    (sheetName pk : String) (sheetRowMap : List (String × SheetRowRef))
    (e : ChangeLogEntry) (hskip : jsTruthy (jsGet e.rowData pk) = false) :
    ∀ pre post, processChangeLogEntries mapping sheetName pk sheetRowMap (pre ++ e :: post)
      = processChangeLogEntries mapping sheetName pk sheetRowMap (pre ++ post) := by
  intro pre
  induction pre with
  | nil =>
    intro post
    simp [processChangeLogEntries, hskip]
  | cons x rest ih =>
    intro post
    have h1 := ih post
    simp only [List.cons_append, processChangeLogEntries, List.append_eq, h1]

/-- The LIMIT clause only removes rows. -/
theorem mem_applyLimit {x : ChangeLogEntry} (lim : Option Nat)
    (l : List ChangeLogEntry) (h : x ∈ applyLimit lim l) : x ∈ l := by
  cases lim with
  | none => exact h
  | some n =>
    simp only [applyLimit] at h
    by_cases hn : (n == 0) = true
    · rw [if_pos hn] at h; exact h
    · rw [if_neg hn] at h; exact List.take_subset n l h

/-- A row matching a WHERE clause that includes `processed = false` is
unprocessed. -/
theorem matches_processed_false {tbl : String} {tag : Option String} {lim : Option Nat}
    {x : ChangeLogEntry}
    (h : matchesChangeLogWhere tbl { processed := some false, excludeSourceTag := tag, limit := lim } x = true) :
    x.processed = false := by
  unfold matchesChangeLogWhere at h
  simp only [Bool.and_eq_true, beq_iff_eq] at h
  exact h.1.2

/-- Every surviving copy of a marked id is flipped to processed. -/
theorem markProcessed_mem_processed (log : List ChangeLogEntry) (ids : List Nat)
    (x : ChangeLogEntry) (hx : x ∈ MySQLAdapter.markChangesProcessed log ids)
    (hid : x.id ∈ ids) : x.processed = true := by
  unfold MySQLAdapter.markChangesProcessed at hx
  obtain ⟨y, hy, hxy⟩ := List.mem_map.mp hx
  by_cases hc : y.id ∈ ids
  · rw [if_pos hc] at hxy
    rw [← hxy]
  · rw [if_neg hc] at hxy
    rw [← hxy] at hid
    exact absurd hid hc

/-- C9: in a T→S run that reaches the marking step, the ids passed to
`markChangesProcessed` are exactly the ids of all fetched change-log entries;
an entry whose row snapshot has a falsy primary-key value is among them even
though the classification loop skipped it (it contributes no batch update and
no append); after marking, every surviving copy of that entry is processed,
so no later scan — for any exclude tag and limit — ever returns a row with
its id again. -/
theorem dbToSheet_marks_skipped_entries
    (mapping : List (String × String)) (sheetRange : Option String) (tbl : String)
    (sheetValues : List (List Value)) (log : List ChangeLogEntry)
    (out : DbToSheetOutcome) (e : ChangeLogEntry)
    (hrun : DbToSheetWorker.runOnLog mapping sheetRange tbl sheetValues log = some out)
    (hmem : e ∈ MySQLAdapter.getChangeLog log tbl
      { processed := some false, excludeSourceTag := some "from_sheet", limit := some 1000 })
    (hskip : jsTruthy (jsGet e.rowData (getPrimaryKeyColumn mapping)) = false) :
    out.markedIds = (MySQLAdapter.getChangeLog log tbl
        { processed := some false, excludeSourceTag := some "from_sheet", limit := some 1000 }).map
          (fun x => x.id)
    ∧ e.id ∈ out.markedIds
    ∧ (∀ pre post,
        processChangeLogEntries mapping (getSheetName sheetRange) (getPrimaryKeyColumn mapping)
          (buildSheetRowMap (getPrimaryKeyColumn mapping) (convertSheetDataToRows mapping sheetValues))
          (pre ++ e :: post)
        = processChangeLogEntries mapping (getSheetName sheetRange) (getPrimaryKeyColumn mapping)
          (buildSheetRowMap (getPrimaryKeyColumn mapping) (convertSheetDataToRows mapping sheetValues))
          (pre ++ post))
    ∧ (∀ x ∈ out.logAfter, x.id = e.id → x.processed = true)
    ∧ (∀ (tag : Option String) (lim : Option Nat),
        ∀ x ∈ MySQLAdapter.getChangeLog out.logAfter tbl
          { processed := some false, excludeSourceTag := tag, limit := lim },
          x.id ≠ e.id) := by
  simp only [DbToSheetWorker.runOnLog] at hrun
  split at hrun
  · exact absurd hrun (by simp)
  · have hout := Option.some.inj hrun
    subst hout
    refine ⟨rfl, ?_, ?_, ?_, ?_⟩
    · exact List.mem_map.mpr ⟨e, hmem, rfl⟩
    · exact processChangeLogEntries_skip mapping (getSheetName sheetRange)
        (getPrimaryKeyColumn mapping) _ e hskip
    · intro x hx hxe
      refine markProcessed_mem_processed log _ x hx ?_
      rw [hxe]
      exact List.mem_map.mpr ⟨e, hmem, rfl⟩
    · intro tag lim x hx hxe
      have hid : x.id ∈ (MySQLAdapter.getChangeLog log tbl
          { processed := some false, excludeSourceTag := some "from_sheet", limit := some 1000 }).map
            (fun x => x.id) := by
        rw [hxe]
        exact List.mem_map.mpr ⟨e, hmem, rfl⟩
      unfold MySQLAdapter.getChangeLog at hx
      have hx2 := mem_applyLimit lim _ hx
      have hx3 : x ∈ (MySQLAdapter.markChangesProcessed log
          ((MySQLAdapter.getChangeLog log tbl
            { processed := some false, excludeSourceTag := some "from_sheet", limit := some 1000 }).map
              (fun x => x.id))).filter
          (matchesChangeLogWhere tbl { processed := some false, excludeSourceTag := tag, limit := lim }) :=
        (List.perm_insertionSort changedAtLe _).mem_iff.mp hx2
      obtain ⟨hx4, hx5⟩ := List.mem_filter.mp hx3
      have hfalse : x.processed = false := matches_processed_false hx5
      have htrue : x.processed = true := markProcessed_mem_processed log _ x hx4 hid
      rw [hfalse] at htrue
      exact Bool.false_ne_true htrue

/-- Witness for the C9 theorem: a one-entry log whose single entry lacks the
primary-key column; the run marks it processed and a later scan no longer
sees it. -/
theorem dbToSheet_marks_skipped_entries_witness :
    entryNoPk.id ∈ ((DbToSheetWorker.runOnLog [("A", "id"), ("B", "name")] (some "Sheet1")
        "users" [[Value.vStr "id", Value.vStr "name"]] [entryNoPk]).getD
          { batchUpdates := [], rowsToAppend := [], markedIds := [], logAfter := [] }).markedIds
    ∧ (∀ x ∈ ((DbToSheetWorker.runOnLog [("A", "id"), ("B", "name")] (some "Sheet1")
        "users" [[Value.vStr "id", Value.vStr "name"]] [entryNoPk]).getD
          { batchUpdates := [], rowsToAppend := [], markedIds := [], logAfter := [] }).logAfter,
        x.id = entryNoPk.id → x.processed = true) := by
  have h := dbToSheet_marks_skipped_entries [("A", "id"), ("B", "name")] (some "Sheet1")
    "users" [[Value.vStr "id", Value.vStr "name"]] [entryNoPk]
    ((DbToSheetWorker.runOnLog [("A", "id"), ("B", "name")] (some "Sheet1")
        "users" [[Value.vStr "id", Value.vStr "name"]] [entryNoPk]).getD
          { batchUpdates := [], rowsToAppend := [], markedIds := [], logAfter := [] })
    entryNoPk rfl (List.mem_singleton_self entryNoPk) rfl
  exact ⟨h.2.1, h.2.2.2.1⟩

end SheetSync
